import Mathlib

/-!
ILI9486 display driver: bus-trace embedding

Every driver routine of `src/ili9486.c` is embedded as the list of bus events
it performs, in program order.  The hardware is the one the source assumes:
the status flags polled by the wait loops always come up, so every routine
runs to completion and its trace is a finite list.

Machine integers are natural numbers; the C conversions are explicit
(`% 256` for `uint8_t`, `% 65536` for `uint16_t`, `% 2 ^ 32` for `uint32_t`),
and the `int` arithmetic of the clipping tests is carried out in `Int`.
-/

namespace ILI9486

/-- Peripheral set-up calls made by `ILI9486_Init` before the link is used
(lines 105-151 of `ili9486.c`). -/
inductive Setup
  | rccGpio
  | rccSpi
  | gpioOutputs
  | gpioAlternate
  | afSclk
  | afMosi
  | spiDeInit
  | spiInit
  | spiEnable
deriving DecidableEq, Repr

/-- One observable action on the link.  `send b` stands for the pair
"wait for TXE, then `SPI_I2S_SendData(b)`", which is the body of
`SPI_SendByte` and is also what the fill and blit loops inline;
`waitBusy` is `SPI_WaitBusy` (the wait on the BSY flag). -/
inductive Event
  | csLow
  | csHigh
  | dcCmd
  | dcData
  | rstLow
  | rstHigh
  | send (b : Nat)
  | waitBusy
  | delay (n : Nat)
  | setup (s : Setup)
deriving DecidableEq, Repr

open Event

/-- Modelled from the spec: `ILI9486_ANCHO` is defined in `ili9486.h`, which is
not among the source files; the panel is 320 pixels wide and the constant is a
plain `int` literal. -/
def ILI9486_ANCHO : Int := 320

/-- Modelled from the spec: `ILI9486_ALTO` is defined in `ili9486.h`, which is
not among the source files; the panel is 480 pixels high and the constant is a
plain `int` literal. -/
def ILI9486_ALTO : Int := 480

/-- Conversion of an `int` value to `uint16_t`. -/
def toU16 (v : Int) : Nat := (v % 65536).toNat

/-- The busy-wait `Delay(count)`. -/
def Delay (count : Nat) : List Event := [delay count]

/-- `SPI_SendByte(uint8_t data)`: wait for TXE, then write the data register. -/
def SPI_SendByte (data : Nat) : List Event := [send (data % 256)]

/-- `SPI_SendWord(uint16_t data)`: most significant byte first. -/
def SPI_SendWord (data : Nat) : List Event :=
  SPI_SendByte ((data >>> 8) &&& 0xFF) ++ SPI_SendByte (data &&& 0xFF)

/-- `SPI_WaitBusy()`. -/
def SPI_WaitBusy : List Event := [waitBusy]

/-- `ILI_WriteCmd(uint8_t cmd)`. -/
def ILI_WriteCmd (cmd : Nat) : List Event :=
  [dcCmd] ++ SPI_SendByte cmd ++ SPI_WaitBusy

/-- `ILI_WriteData8(uint8_t data)`. -/
def ILI_WriteData8 (data : Nat) : List Event :=
  [dcData] ++ SPI_SendByte data ++ SPI_WaitBusy

/-- `ILI_WriteData16(uint16_t data)`. -/
def ILI_WriteData16 (data : Nat) : List Event :=
  [dcData] ++ SPI_SendWord data ++ SPI_WaitBusy

/-- The local array `gammaP` of `ILI9486_Init`. -/
def gammaP : List Nat :=
  [0x0F, 0x1F, 0x1C, 0x0C, 0x0F, 0x08, 0x48, 0x98, 0x37, 0x0A, 0x13, 0x04, 0x11, 0x0D, 0x00]

/-- The local array `gammaN` of `ILI9486_Init`. -/
def gammaN : List Nat :=
  [0x0F, 0x32, 0x2E, 0x0B, 0x0D, 0x05, 0x47, 0x75, 0x37, 0x06, 0x10, 0x03, 0x24, 0x20, 0x00]

/-- The loop `for (int i = i0; i < 15; i++) ILI_WriteData8(table[i]);`,
with `fuel` the number of iterations still allowed. -/
def gammaLoop (table : List Nat) : Nat → Nat → List Event
  | 0, _ => []
  | fuel + 1, i =>
    if i < 15 then ILI_WriteData8 (table.getD i 0) ++ gammaLoop table fuel (i + 1) else []

/-- `ILI9486_Init()`. -/
def ILI9486_Init : List Event :=
  [setup Setup.rccGpio, setup Setup.rccSpi,
   setup Setup.gpioOutputs, setup Setup.gpioAlternate,
   setup Setup.afSclk, setup Setup.afMosi,
   csHigh, rstHigh,
   setup Setup.spiDeInit, setup Setup.spiInit, setup Setup.spiEnable]
  ++ [csLow]
  ++ [rstHigh] ++ Delay 50000
  ++ [rstLow] ++ Delay 50000
  ++ [rstHigh] ++ Delay 200000
  ++ ILI_WriteCmd 0xB0 ++ ILI_WriteData8 0x00
  ++ ILI_WriteCmd 0x11 ++ Delay 150000
  ++ ILI_WriteCmd 0x3A ++ ILI_WriteData8 0x55
  ++ ILI_WriteCmd 0x36 ++ ILI_WriteData8 0x28
  ++ ILI_WriteCmd 0xC2 ++ ILI_WriteData8 0x44
  ++ ILI_WriteCmd 0xC5
  ++ ILI_WriteData8 0x00 ++ ILI_WriteData8 0x00 ++ ILI_WriteData8 0x00 ++ ILI_WriteData8 0x00
  ++ ILI_WriteCmd 0xE0 ++ gammaLoop gammaP 15 0
  ++ ILI_WriteCmd 0xE1 ++ gammaLoop gammaN 15 0
  ++ ILI_WriteCmd 0x29 ++ Delay 150000
  ++ [csHigh]

/-- `ILI9486_SetWindow(x0, y0, x1, y1)`. -/
def ILI9486_SetWindow (x0 y0 x1 y1 : Nat) : List Event :=
  [csLow]
  ++ ILI_WriteCmd 0x2A
  ++ ILI_WriteData8 (x0 >>> 8) ++ ILI_WriteData8 (x0 &&& 0xFF)
  ++ ILI_WriteData8 (x1 >>> 8) ++ ILI_WriteData8 (x1 &&& 0xFF)
  ++ ILI_WriteCmd 0x2B
  ++ ILI_WriteData8 (y0 >>> 8) ++ ILI_WriteData8 (y0 &&& 0xFF)
  ++ ILI_WriteData8 (y1 >>> 8) ++ ILI_WriteData8 (y1 &&& 0xFF)
  ++ ILI_WriteCmd 0x2C
  ++ [csHigh]

/-- `ILI9486_DrawPixel(x, y, color)`. -/
def ILI9486_DrawPixel (x y color : Nat) : List Event :=
  if (x : Int) ≥ ILI9486_ANCHO ∨ (y : Int) ≥ ILI9486_ALTO then []
  else
    ILI9486_SetWindow x y x y
    ++ [csLow] ++ [dcData] ++ SPI_SendWord color ++ SPI_WaitBusy ++ [csHigh]

/-- The clipping statement shared by the fill and the blit,
`if ((x + w - 1) >= LIMIT) w = LIMIT - x;`, as the new value of `w`.
The test is evaluated in `int`; the assignment converts back to `uint16_t`. -/
def clip (limit : Int) (x w : Nat) : Nat :=
  if (x : Int) + (w : Int) - 1 ≥ limit then toU16 (limit - (x : Int)) else w

/-- The loop `while (total_pixels--) { send hi; send lo; }` of `ILI9486_FillRect`. -/
def fillLoop (hi lo : Nat) : Nat → List Event
  | 0 => []
  | n + 1 => send hi :: send lo :: fillLoop hi lo n

/-- `ILI9486_FillRect(x, y, w, h, color)`. -/
def ILI9486_FillRect (x y w h color : Nat) : List Event :=
  if (x : Int) ≥ ILI9486_ANCHO ∨ (y : Int) ≥ ILI9486_ALTO then []
  else
    let w := clip ILI9486_ANCHO x w
    let h := clip ILI9486_ALTO y h
    let total_pixels := (w * h) % 2 ^ 32
    let hi := (color >>> 8) % 256
    let lo := (color &&& 0xFF) % 256
    ILI9486_SetWindow x y (toU16 ((x : Int) + (w : Int) - 1)) (toU16 ((y : Int) + (h : Int) - 1))
    ++ [csLow] ++ [dcData]
    ++ fillLoop hi lo total_pixels
    ++ SPI_WaitBusy ++ [csHigh]

/-- The loop `while (total_pixels--) { color = *p++; send hi; send lo; }` of
`ILI9486_DrawImage`; `data i` is the 16-bit word `data[i]` and `i` is the
offset of the read pointer `p`. -/
def imageLoop (data : Nat → Nat) : Nat → Nat → List Event
  | 0, _ => []
  | n + 1, i =>
    let color := data i % 65536
    send ((color >>> 8) % 65536) :: send ((color &&& 0xFF) % 65536) :: imageLoop data n (i + 1)

/-- `ILI9486_DrawImage(x, y, w, h, data)`. -/
def ILI9486_DrawImage (x y w h : Nat) (data : Nat → Nat) : List Event :=
  if (x : Int) ≥ ILI9486_ANCHO ∨ (y : Int) ≥ ILI9486_ALTO then []
  else
    let w := clip ILI9486_ANCHO x w
    let h := clip ILI9486_ALTO y h
    let total_pixels := (w * h) % 2 ^ 32
    ILI9486_SetWindow x y (toU16 ((x : Int) + (w : Int) - 1)) (toU16 ((y : Int) + (h : Int) - 1))
    ++ [csLow] ++ [dcData]
    ++ imageLoop data total_pixels 0
    ++ SPI_WaitBusy ++ [csHigh]

/-! ## Observers of a trace (specification side) -/

/-- Level of the discriminator line. -/
inductive Mode
  | command
  | data
deriving DecidableEq, Repr

/-- The bytes of a trace in order, each with the discriminator level at which
it is put on the bus; `m` is the level before the first event. -/
def tagged : Mode → List Event → List (Mode × Nat)
  | _, [] => []
  | m, e :: t =>
    match e with
    | dcCmd => tagged Mode.command t
    | dcData => tagged Mode.data t
    | send b => (m, b) :: tagged m t
    | _ => tagged m t

/-- Leading data-mode bytes of a tagged byte list: the parameters of the
command that precedes them. -/
def params : List (Mode × Nat) → List Nat
  | (Mode.data, b) :: t => b :: params t
  | _ => []

/-- Every command byte of a tagged byte list together with its parameters. -/
def frames : List (Mode × Nat) → List (Nat × List Nat)
  | [] => []
  | (Mode.command, op) :: t => (op, params t) :: frames t
  | (Mode.data, _) :: t => frames t

/-- Opcodes of a trace, in the order they are sent. -/
def opcodes (t : List Event) : List Nat := (frames (tagged Mode.command t)).map Prod.fst

/-- Bytes the controller takes as pixel data: the data-mode bytes that follow
the most recent memory-write command (0x2C).  `armed` tells whether the last
command seen was 0x2C and `acc` holds the bytes taken so far. -/
def ramBytes : Bool → List Nat → List (Mode × Nat) → List Nat
  | _, acc, [] => acc
  | _, _, (Mode.command, op) :: t => ramBytes (op == 0x2C) [] t
  | armed, acc, (Mode.data, b) :: t => ramBytes armed (if armed then acc ++ [b] else acc) t

/-- Big-endian recombination of a byte list into 16-bit words. -/
def pairUp : List Nat → List Nat
  | hi :: lo :: t => (hi * 256 + lo) :: pairUp t
  | _ => []

/-- The pixel words a trace writes into panel memory. -/
def pixelStream (t : List Event) : List Nat :=
  pairUp (ramBytes false [] (tagged Mode.command t))

/-- The window a trace programs: `(x0, y0, x1, y1)` recombined from the
parameters of the last column-address-set (0x2A) and page-address-set (0x2B)
frames, when both are present with four parameters each. -/
def windowOf (t : List Event) : Option (Nat × Nat × Nat × Nat) :=
  let fs := (frames (tagged Mode.command t)).reverse
  match fs.lookup 0x2A, fs.lookup 0x2B with
  | some [a, b, c, d], some [e, f, g, k] =>
    some (a * 256 + b, e * 256 + f, c * 256 + d, g * 256 + k)
  | _, _ => none

/-- The precondition of `setWindow` in the words of the specification:
`x0 ≤ x1 ≤ width - 1` and `y0 ≤ y1 ≤ height - 1`. -/
def windowPre (win : Nat × Nat × Nat × Nat) : Prop :=
  win.1 ≤ win.2.2.1 ∧ win.2.2.1 ≤ 319 ∧ win.2.1 ≤ win.2.2.2 ∧ win.2.2.2 ≤ 479

instance (win : Nat × Nat × Nat × Nat) : Decidable (windowPre win) := by
  unfold windowPre; infer_instance

/-- A back-to-back pixel burst: for each word its high byte then its low byte,
with nothing in between. -/
def burst : List Nat → List Event
  | [] => []
  | p :: ps => send (p >>> 8) :: send (p &&& 0xFF) :: burst ps

/-- The memory seen through a pointer to the first element of `pixels`
(reads past the end of the sequence are not constrained and give 0 here). -/
def readBuf (pixels : List Nat) : Nat → Nat := fun i => pixels.getD i 0

/-- Source offsets of the correctly cropped sub-region of a row-major image
of row pitch `w`: `r * w + c` for `r < h'` and `c < w'`, row by row. -/
def cropIndices (w w' h' : Nat) : List Nat :=
  (List.range h').flatMap (fun r => (List.range w').map (fun c => r * w + c))

/-- The correctly cropped sub-region: the entries `pixels[r * w + c]` for
`r < h'` and `c < w'`, row by row. -/
def cropped (pixels : List Nat) (w w' h' : Nat) : List Nat :=
  (cropIndices w w' h').map (fun i => pixels.getD i 0)

/-- State of the link as the protocol rules see it. -/
structure Link where
  /-- Chip-select is asserted. -/
  selected : Bool
  /-- The discriminator has been set since chip-select was last asserted. -/
  dcSet : Bool
  /-- A byte has been sent since the last wait-for-idle. -/
  inFlight : Bool
deriving DecidableEq, Repr

/-- The idle link: chip-select deasserted, nothing in flight. -/
def Link.idle : Link := ⟨false, false, false⟩

/-- One event under the link rules; `none` when the event breaks a rule. -/
def Link.step (s : Link) : Event → Option Link
  | csLow => some ⟨true, false, s.inFlight⟩
  | csHigh => if s.inFlight then none else some ⟨false, s.dcSet, false⟩
  | dcCmd => if s.inFlight then none else some ⟨s.selected, true, false⟩
  | dcData => if s.inFlight then none else some ⟨s.selected, true, false⟩
  | send _ => if s.selected && s.dcSet then some ⟨true, true, true⟩ else none
  | waitBusy => some ⟨s.selected, s.dcSet, false⟩
  | _ => some s

/-- A whole trace under the link rules. -/
def Link.run : Link → List Event → Option Link
  | s, [] => some s
  | s, e :: t =>
    match s.step e with
    | some s' => Link.run s' t
    | none => none

/-- A trace obeys the link protocol when, started on the idle link, no event
breaks a rule and chip-select is deasserted at the end. -/
def obeysLink (t : List Event) : Prop :=
  ∃ s, Link.run Link.idle t = some s ∧ s.selected = false

/-! ## Arithmetic of the C conversions -/

theorem shr8_eq_div (c : Nat) : c >>> 8 = c / 256 := by
  simp [Nat.shiftRight_eq_div_pow]

theorem and255_eq_mod (c : Nat) : c &&& 0xFF = c % 256 :=
  Nat.and_pow_two_sub_one_eq_mod c 8

theorem hi_byte_u8 (c : Nat) (hc : c < 65536) : (c >>> 8) % 256 = c >>> 8 := by
  rw [shr8_eq_div]; omega

theorem lo_byte_u8 (c : Nat) : (c &&& 0xFF) % 256 = c &&& 0xFF := by
  rw [and255_eq_mod]; omega

theorem hi_lo_recombine (c : Nat) : (c >>> 8) * 256 + (c &&& 0xFF) = c := by
  rw [shr8_eq_div, and255_eq_mod]; omega

theorem toU16_window (x w : Nat) (hw : 1 ≤ w) (hx : x + w ≤ 65536) :
    toU16 ((x : Int) + (w : Int) - 1) = x + w - 1 := by
  unfold toU16; omega

theorem clip_width_eq_min (x w : Nat) (hx : x < 320) :
    clip ILI9486_ANCHO x w = min w (320 - x) := by
  unfold clip toU16 ILI9486_ANCHO
  split <;> omega

theorem clip_height_eq_min (y h : Nat) (hy : y < 480) :
    clip ILI9486_ALTO y h = min h (480 - y) := by
  unfold clip toU16 ILI9486_ALTO
  split <;> omega

theorem anchor_on_panel (x y : Nat) (hx : x < 320) (hy : y < 480) :
    ¬ ((x : Int) ≥ ILI9486_ANCHO ∨ (y : Int) ≥ ILI9486_ALTO) := by
  unfold ILI9486_ANCHO ILI9486_ALTO; omega

theorem anchor_off_panel (x y : Nat) (h : 320 ≤ x ∨ 480 ≤ y) :
    (x : Int) ≥ ILI9486_ANCHO ∨ (y : Int) ≥ ILI9486_ALTO := by
  unfold ILI9486_ANCHO ILI9486_ALTO; omega

/-! ## The two streaming loops -/

theorem fillLoop_eq_burst (c n : Nat) :
    fillLoop (c >>> 8) (c &&& 0xFF) n = burst (List.replicate n c) := by
  induction n with
  | zero => rfl
  | succ n ih => simp [fillLoop, List.replicate_succ, burst, ih]

theorem burst_length (ps : List Nat) : (burst ps).length = 2 * ps.length := by
  induction ps with
  | nil => rfl
  | cons p ps ih => simp [burst, ih]; omega

theorem imageLoop_eq_burst (data : Nat → Nat) (n i : Nat) :
    imageLoop data n i
      = burst ((List.range n).map (fun k => data (i + k) % 65536)) := by
  induction n generalizing i with
  | zero => rfl
  | succ n ih =>
    have h8 : ((data i % 65536) >>> 8) % 65536 = (data i % 65536) >>> 8 := by
      rw [shr8_eq_div]; omega
    have h0 : ((data i % 65536) &&& 0xFF) % 65536 = (data i % 65536) &&& 0xFF := by
      rw [and255_eq_mod]; omega
    rw [List.range_succ_eq_map]
    simp only [imageLoop, List.map_cons, List.map_map, burst, ih (i + 1), h8, h0,
      Nat.add_zero]
    congr 3
    apply List.map_congr_left
    intro k _
    simp only [Function.comp]
    congr 2
    omega

theorem buffer_range (data : Nat → Nat) (pixels : List Nat) (n : Nat)
    (hdata : ∀ i, i < pixels.length → data i = pixels.getD i 0)
    (hn : n ≤ pixels.length) (h16 : ∀ p ∈ pixels, p < 65536) :
    (List.range n).map (fun k => data (0 + k) % 65536) = pixels.take n := by
  apply List.ext_getElem
  · simp [Nat.min_eq_left hn]
  · intro k h1 h2
    simp only [List.length_map, List.length_range] at h1
    have hk : k < pixels.length := by omega
    simp only [List.getElem_map, List.getElem_range, List.getElem_take,
      Nat.zero_add, hdata k hk, List.getD_eq_getElem?_getD, List.getElem?_eq_getElem hk,
      Option.getD_some]
    exact Nat.mod_eq_of_lt (h16 _ (List.getElem_mem hk))

theorem readBuf_agrees (pixels : List Nat) :
    ∀ i, i < pixels.length → readBuf pixels i = pixels.getD i 0 :=
  fun _ _ => rfl

theorem tagged_burst (ps : List Nat) (rest : List Event) :
    tagged Mode.data (burst ps ++ rest)
      = ps.flatMap (fun p => [(Mode.data, p >>> 8), (Mode.data, p &&& 0xFF)])
        ++ tagged Mode.data rest := by
  induction ps with
  | nil => rfl
  | cons p ps ih => simp [burst, tagged, ih]

/-! ## Shape of the routines on the panel -/

theorem setWindow_events (x0 y0 x1 y1 : Nat)
    (hx0 : x0 < 65536) (hy0 : y0 < 65536) (hx1 : x1 < 65536) (hy1 : y1 < 65536) :
    ILI9486_SetWindow x0 y0 x1 y1 =
      [csLow,
       dcCmd, send 0x2A, waitBusy,
       dcData, send (x0 >>> 8), waitBusy, dcData, send (x0 &&& 0xFF), waitBusy,
       dcData, send (x1 >>> 8), waitBusy, dcData, send (x1 &&& 0xFF), waitBusy,
       dcCmd, send 0x2B, waitBusy,
       dcData, send (y0 >>> 8), waitBusy, dcData, send (y0 &&& 0xFF), waitBusy,
       dcData, send (y1 >>> 8), waitBusy, dcData, send (y1 &&& 0xFF), waitBusy,
       dcCmd, send 0x2C, waitBusy,
       csHigh] := by
  simp [ILI9486_SetWindow, ILI_WriteCmd, ILI_WriteData8, SPI_SendByte, SPI_WaitBusy,
    hi_byte_u8, lo_byte_u8, hx0, hy0, hx1, hy1]

theorem fillRect_on_panel (x y w h c : Nat) (hw : 1 ≤ w) (hh : 1 ≤ h)
    (hx : x + w ≤ 320) (hy : y + h ≤ 480) (hc : c < 65536) :
    ILI9486_FillRect x y w h c =
      ILI9486_SetWindow x y (x + w - 1) (y + h - 1)
        ++ ([csLow, dcData] ++ burst (List.replicate (w * h) c) ++ [waitBusy, csHigh]) := by
  have hcw : clip ILI9486_ANCHO x w = w := by
    rw [clip_width_eq_min x w (by omega)]; omega
  have hch : clip ILI9486_ALTO y h = h := by
    rw [clip_height_eq_min y h (by omega)]; omega
  have hlt : w * h < 2 ^ 32 := by
    have : w * h ≤ 320 * 480 := Nat.mul_le_mul (by omega) (by omega)
    omega
  unfold ILI9486_FillRect
  rw [if_neg (anchor_on_panel x y (by omega) (by omega))]
  simp only [hcw, hch, toU16_window x w hw (by omega), toU16_window y h hh (by omega),
    Nat.mod_eq_of_lt hlt, hi_byte_u8 c hc, lo_byte_u8, fillLoop_eq_burst, SPI_WaitBusy,
    List.append_assoc, List.singleton_append, List.cons_append, List.nil_append]

theorem drawImage_on_panel (x y w h : Nat) (data : Nat → Nat) (hw : 1 ≤ w) (hh : 1 ≤ h)
    (hx : x + w ≤ 320) (hy : y + h ≤ 480) :
    ILI9486_DrawImage x y w h data =
      ILI9486_SetWindow x y (x + w - 1) (y + h - 1)
        ++ ([csLow, dcData]
            ++ burst ((List.range (w * h)).map (fun k => data (0 + k) % 65536))
            ++ [waitBusy, csHigh]) := by
  have hcw : clip ILI9486_ANCHO x w = w := by
    rw [clip_width_eq_min x w (by omega)]; omega
  have hch : clip ILI9486_ALTO y h = h := by
    rw [clip_height_eq_min y h (by omega)]; omega
  have hlt : w * h < 2 ^ 32 := by
    have : w * h ≤ 320 * 480 := Nat.mul_le_mul (by omega) (by omega)
    omega
  unfold ILI9486_DrawImage
  rw [if_neg (anchor_on_panel x y (by omega) (by omega))]
  simp only [hcw, hch, toU16_window x w hw (by omega), toU16_window y h hh (by omega),
    Nat.mod_eq_of_lt hlt, imageLoop_eq_burst, SPI_WaitBusy,
    List.append_assoc, List.singleton_append, List.cons_append, List.nil_append]

theorem drawPixel_on_panel (x y c : Nat) (hx : x < 320) (hy : y < 480) (hc : c < 65536) :
    ILI9486_DrawPixel x y c =
      ILI9486_SetWindow x y x y
        ++ [csLow, dcData, send (c >>> 8), send (c &&& 0xFF), waitBusy, csHigh] := by
  have h1 : ((c >>> 8) &&& 0xFF) % 256 = c >>> 8 := by
    rw [and255_eq_mod, shr8_eq_div]; omega
  unfold ILI9486_DrawPixel
  rw [if_neg (anchor_on_panel x y hx hy)]
  simp only [SPI_SendWord, SPI_SendByte, SPI_WaitBusy, h1, lo_byte_u8,
    List.append_assoc, List.singleton_append, List.cons_append, List.nil_append]

theorem burst_replicate (c n : Nat) :
    burst (List.replicate n c)
      = (List.replicate n [send (c >>> 8), send (c &&& 0xFF)]).flatten := by
  induction n with
  | zero => rfl
  | succ n ih => simp [List.replicate_succ, burst, ih]

/-! ## The link rules along a trace -/

theorem run_append (s : Link) (a b : List Event) :
    Link.run s (a ++ b) = (Link.run s a).bind (fun s' => Link.run s' b) := by
  induction a generalizing s with
  | nil => rfl
  | cons e a ih =>
    simp only [List.cons_append, Link.run]
    cases s.step e with
    | none => rfl
    | some s' => exact ih s'

theorem run_setWindow (x0 y0 x1 y1 : Nat) (sel dc : Bool) :
    Link.run ⟨sel, dc, false⟩ (ILI9486_SetWindow x0 y0 x1 y1) = some ⟨false, true, false⟩ := by
  simp [ILI9486_SetWindow, ILI_WriteCmd, ILI_WriteData8, SPI_SendByte, SPI_WaitBusy,
    Link.run, Link.step]

theorem run_fillLoop (hi lo n : Nat) (f : Bool) :
    Link.run ⟨true, true, f⟩ (fillLoop hi lo n) = some ⟨true, true, f || decide (0 < n)⟩ := by
  induction n generalizing f with
  | zero => simp [fillLoop, Link.run]
  | succ n ih => simp [fillLoop, Link.run, Link.step, ih]

theorem run_imageLoop (data : Nat → Nat) (n i : Nat) (f : Bool) :
    Link.run ⟨true, true, f⟩ (imageLoop data n i)
      = some ⟨true, true, f || decide (0 < n)⟩ := by
  induction n generalizing f i with
  | zero => simp [imageLoop, Link.run]
  | succ n ih => simp [imageLoop, Link.run, Link.step, ih]

theorem run_stream_bracket (body : List Event) (f : Bool)
    (hbody : Link.run ⟨true, true, false⟩ body = some ⟨true, true, f⟩) :
    Link.run ⟨false, true, false⟩ ([csLow] ++ [dcData] ++ body ++ SPI_WaitBusy ++ [csHigh])
      = some ⟨false, true, false⟩ := by
  simp [run_append, Link.run, Link.step, hbody, SPI_WaitBusy]

theorem obeysLink_nil : obeysLink [] := ⟨Link.idle, rfl, rfl⟩

theorem obeysLink_window_then_stream (x0 y0 x1 y1 : Nat) (body : List Event) (f : Bool)
    (hbody : Link.run ⟨true, true, false⟩ body = some ⟨true, true, f⟩) :
    obeysLink (ILI9486_SetWindow x0 y0 x1 y1
      ++ [csLow] ++ [dcData] ++ body ++ SPI_WaitBusy ++ [csHigh]) := by
  refine ⟨⟨false, true, false⟩, ?_, rfl⟩
  have h := run_stream_bracket body f hbody
  simp only [List.append_assoc] at h ⊢
  rw [run_append, Link.idle, run_setWindow]
  exact h

/-! ## What reaches panel memory -/

theorem ramBytes_pair (acc : List Nat) (a b : Nat) (t : List (Mode × Nat)) :
    ramBytes true acc ((Mode.data, a) :: (Mode.data, b) :: t) = ramBytes true (acc ++ [a, b]) t := by
  simp [ramBytes]

theorem ramBytes_data (ps : List Nat) (acc : List Nat) :
    ramBytes true acc (ps.flatMap (fun p => [(Mode.data, p >>> 8), (Mode.data, p &&& 0xFF)]))
      = acc ++ ps.flatMap (fun p => [p >>> 8, p &&& 0xFF]) := by
  induction ps generalizing acc with
  | nil => simp [ramBytes]
  | cons p ps ih =>
    calc ramBytes true acc
          ((p :: ps).flatMap (fun p => [(Mode.data, p >>> 8), (Mode.data, p &&& 0xFF)]))
        = ramBytes true acc ((Mode.data, p >>> 8) :: (Mode.data, p &&& 0xFF)
            :: ps.flatMap (fun p => [(Mode.data, p >>> 8), (Mode.data, p &&& 0xFF)])) := rfl
      _ = ramBytes true (acc ++ [p >>> 8, p &&& 0xFF])
            (ps.flatMap (fun p => [(Mode.data, p >>> 8), (Mode.data, p &&& 0xFF)])) :=
          ramBytes_pair _ _ _ _
      _ = (acc ++ [p >>> 8, p &&& 0xFF]) ++ ps.flatMap (fun p => [p >>> 8, p &&& 0xFF]) :=
          ih _
      _ = acc ++ (p :: ps).flatMap (fun p => [p >>> 8, p &&& 0xFF]) := by
          rw [List.flatMap_cons, List.append_assoc]

theorem pairUp_bytes (ps : List Nat) :
    pairUp (ps.flatMap (fun p => [p >>> 8, p &&& 0xFF])) = ps := by
  induction ps with
  | nil => rfl
  | cons p ps ih =>
    calc pairUp ((p :: ps).flatMap (fun p => [p >>> 8, p &&& 0xFF]))
        = ((p >>> 8) * 256 + (p &&& 0xFF))
            :: pairUp (ps.flatMap (fun p => [p >>> 8, p &&& 0xFF])) := rfl
      _ = p :: ps := by rw [ih, hi_lo_recombine]

theorem pixelStream_window_burst (x0 y0 x1 y1 : Nat) (ps : List Nat) :
    pixelStream (ILI9486_SetWindow x0 y0 x1 y1
      ++ ([csLow, dcData] ++ burst ps ++ [waitBusy, csHigh])) = ps := by
  have ht := tagged_burst ps [waitBusy, csHigh]
  have hr : tagged Mode.data [waitBusy, csHigh] = [] := rfl
  rw [hr, List.append_nil] at ht
  simp only [pixelStream, ILI9486_SetWindow, ILI_WriteCmd, ILI_WriteData8, SPI_SendByte,
    SPI_WaitBusy, List.append_assoc, List.singleton_append, List.cons_append,
    List.nil_append, tagged, ramBytes]
  show pairUp (ramBytes true [] (tagged Mode.data (burst ps ++ [waitBusy, csHigh]))) = ps
  rw [ht, ramBytes_data, List.nil_append, pairUp_bytes]

theorem drawImage_clipped (x y w h : Nat) (data : Nat → Nat) (hx : x < 320) (hy : y < 480) :
    ILI9486_DrawImage x y w h data =
      ILI9486_SetWindow x y
          (toU16 ((x : Int) + ((min w (320 - x) : Nat) : Int) - 1))
          (toU16 ((y : Int) + ((min h (480 - y) : Nat) : Int) - 1))
        ++ ([csLow, dcData]
            ++ burst ((List.range (min w (320 - x) * min h (480 - y))).map
                (fun k => data (0 + k) % 65536))
            ++ [waitBusy, csHigh]) := by
  have hlt : min w (320 - x) * min h (480 - y) < 2 ^ 32 := by
    have : min w (320 - x) * min h (480 - y) ≤ 320 * 480 :=
      Nat.mul_le_mul (by omega) (by omega)
    omega
  unfold ILI9486_DrawImage
  rw [if_neg (anchor_on_panel x y hx hy)]
  simp only [clip_width_eq_min x w hx, clip_height_eq_min y h hy,
    Nat.mod_eq_of_lt hlt, imageLoop_eq_burst, SPI_WaitBusy,
    List.append_assoc, List.singleton_append, List.cons_append, List.nil_append]

theorem take_eq_map_range (pixels : List Nat) (n : Nat) (hn : n ≤ pixels.length) :
    pixels.take n = (List.range n).map (fun i => pixels.getD i 0) := by
  apply List.ext_getElem
  · simp [Nat.min_eq_left hn]
  · intro k h1 h2
    simp only [List.length_map, List.length_range] at h2
    have hk : k < pixels.length := by omega
    simp only [List.getElem_map, List.getElem_range, List.getElem_take,
      List.getD_eq_getElem?_getD, List.getElem?_eq_getElem hk, Option.getD_some]

theorem cropIndices_full (w h' : Nat) : cropIndices w w h' = List.range (w * h') := by
  induction h' with
  | zero => simp [cropIndices]
  | succ n ih =>
    unfold cropIndices at ih ⊢
    rw [List.range_succ, List.flatMap_append, ih, List.flatMap_singleton, Nat.mul_succ,
      List.range_add]
    congr 1
    apply List.map_congr_left
    intro c _
    rw [Nat.mul_comm]

theorem cropIndices_one_row (w w' : Nat) : cropIndices w w' 1 = List.range w' := by
  have h1 : List.range 1 = [0] := rfl
  rw [cropIndices, h1, List.flatMap_singleton]
  simp

theorem cropIndices_second_row (w w' k : Nat) (hw' : 1 ≤ w') :
    (cropIndices w w' (k + 2))[w']? = some w := by
  unfold cropIndices
  rw [Nat.add_comm k 2, List.range_add]
  have h2 : List.range 2 = [0, 1] := rfl
  rw [h2, List.flatMap_append, List.flatMap_cons, List.flatMap_cons, List.flatMap_nil,
    List.append_nil, List.append_assoc]
  rw [List.getElem?_append_right (by simp)]
  rw [List.getElem?_append_left (by simp; omega)]
  simp only [List.length_map, List.length_range, Nat.sub_self, List.getElem?_map]
  rw [List.getElem?_range (by omega)]
  simp

theorem obeysLink_rejects_rule_breakers :
    ¬ obeysLink [csLow, dcData, send 0, csHigh]
    ∧ ¬ obeysLink [csLow, send 0, waitBusy, csHigh]
    ∧ ¬ obeysLink [csLow, dcCmd, send 0, dcData, send 0, waitBusy, csHigh]
    ∧ ¬ obeysLink [dcData, send 0, waitBusy]
    ∧ ¬ obeysLink [csLow, dcData, send 0, waitBusy] := by
  simp [obeysLink, Link.run, Link.step, Link.idle]

/-! ## The window programmed by the clipped routines -/

theorem window_pre_of_positive_size (x y w h : Nat) (hx : x < 320) (hy : y < 480)
    (hw : 1 ≤ w) (hh : 1 ≤ h) :
    windowPre (x, y,
      toU16 ((x : Int) + (clip ILI9486_ANCHO x w : Int) - 1),
      toU16 ((y : Int) + (clip ILI9486_ALTO y h : Int) - 1)) := by
  rw [clip_width_eq_min x w hx, clip_height_eq_min y h hy]
  unfold windowPre toU16
  simp only
  omega

/-! ## The claims -/

/-- C1: for a rectangle lying fully on the 320x480 panel and a 16-bit colour,
the trace of `ILI9486_FillRect` is the trace of `ILI9486_SetWindow` for the
inclusive corners followed by one streaming bracket: select asserted,
discriminator set to data once, exactly `w * h` pairs `(c >> 8, c & 0xFF)` with
nothing in between, one wait-for-idle, select deasserted.  The pair count is
the exact product: the full-panel fill with colour 0 programs the window
(0,0,319,479) and streams exactly 153600 pairs (0,0). -/
theorem C1_fillRect_trace (x y w h c : Nat) (hw : 1 ≤ w) (hh : 1 ≤ h)
    (hx : x + w ≤ 320) (hy : y + h ≤ 480) (hc : c < 65536) :
    ILI9486_FillRect x y w h c =
        ILI9486_SetWindow x y (x + w - 1) (y + h - 1)
          ++ ([csLow, dcData]
              ++ (List.replicate (w * h) [send (c >>> 8), send (c &&& 0xFF)]).flatten
              ++ [waitBusy, csHigh])
    ∧ ((List.replicate (w * h) [send (c >>> 8), send (c &&& 0xFF)]).flatten).length
        = 2 * (w * h)
    ∧ ILI9486_FillRect 0 0 320 480 0 =
        ILI9486_SetWindow 0 0 319 479
          ++ ([csLow, dcData]
              ++ (List.replicate 153600 [send 0, send 0]).flatten
              ++ [waitBusy, csHigh]) := by
  refine ⟨?_, ?_, ?_⟩
  · rw [fillRect_on_panel x y w h c hw hh hx hy hc, burst_replicate]
  · rw [← burst_replicate, burst_length, List.length_replicate]
  · have h0 := fillRect_on_panel 0 0 320 480 0 (by omega) (by omega) (by omega) (by omega)
      (by omega)
    rw [burst_replicate] at h0
    exact h0

/-- Witness of C1 on the 2x3 rectangle at (5,7) in colour 0xF800. -/
theorem C1_fillRect_trace_witness :
    (1 ≤ 2 ∧ 1 ≤ 3 ∧ 5 + 2 ≤ 320 ∧ 7 + 3 ≤ 480 ∧ 0xF800 < 65536)
    ∧ (ILI9486_FillRect 5 7 2 3 0xF800 =
        ILI9486_SetWindow 5 7 (5 + 2 - 1) (7 + 3 - 1)
          ++ ([csLow, dcData]
              ++ (List.replicate (2 * 3) [send (0xF800 >>> 8), send (0xF800 &&& 0xFF)]).flatten
              ++ [waitBusy, csHigh])
    ∧ ((List.replicate (2 * 3) [send (0xF800 >>> 8), send (0xF800 &&& 0xFF)]).flatten).length
        = 2 * (2 * 3)
    ∧ ILI9486_FillRect 0 0 320 480 0 =
        ILI9486_SetWindow 0 0 319 479
          ++ ([csLow, dcData]
              ++ (List.replicate 153600 [send 0, send 0]).flatten
              ++ [waitBusy, csHigh])) :=
  ⟨by decide, C1_fillRect_trace 5 7 2 3 0xF800 (by decide) (by decide) (by decide)
    (by decide) (by decide)⟩

/-- C2: when the anchor is off the panel (`x ≥ 320` or `y ≥ 480`), the pixel,
fill and blit routines emit the empty trace whatever the other arguments are;
in particular `drawPixel(320, 479, c)` emits nothing. -/
theorem C2_off_panel_silent (x y w h c : Nat) (data : Nat → Nat)
    (hoff : 320 ≤ x ∨ 480 ≤ y) :
    ILI9486_DrawPixel x y c = []
    ∧ ILI9486_FillRect x y w h c = []
    ∧ ILI9486_DrawImage x y w h data = []
    ∧ ILI9486_DrawPixel 320 479 c = [] := by
  have hcond := anchor_off_panel x y hoff
  have h320 := anchor_off_panel 320 479 (Or.inl (Nat.le_refl 320))
  refine ⟨?_, ?_, ?_, ?_⟩
  · unfold ILI9486_DrawPixel; rw [if_pos hcond]
  · unfold ILI9486_FillRect; rw [if_pos hcond]
  · unfold ILI9486_DrawImage; rw [if_pos hcond]
  · unfold ILI9486_DrawPixel; rw [if_pos h320]

/-- Witness of C2 at the anchor (12, 480), one row below the panel. -/
theorem C2_off_panel_silent_witness :
    (320 ≤ 12 ∨ 480 ≤ 480)
    ∧ (ILI9486_DrawPixel 12 480 0x07E0 = []
      ∧ ILI9486_FillRect 12 480 4 4 0x07E0 = []
      ∧ ILI9486_DrawImage 12 480 4 4 (readBuf [1, 2, 3]) = []
      ∧ ILI9486_DrawPixel 320 479 0x07E0 = []) :=
  ⟨by decide, C2_off_panel_silent 12 480 4 4 0x07E0 (readBuf [1, 2, 3]) (by decide)⟩

/-- C3: with the anchor on the panel, `ILI9486_FillRect` emits the same trace
as on the clamped sizes `min w (320 - x)` and `min h (480 - y)`; the clipping
statement computes exactly that clamp, so `fillRect(0,0,420,480,c)` is
`fillRect(0,0,320,480,c)`, and for the clipped sizes `x + w - 1 < 320` and
`y + h - 1 < 480` (in the `int` arithmetic of the source). -/
theorem C3_clip_is_clamp (x y w h c : Nat) (hx : x < 320) (hy : y < 480) :
    ILI9486_FillRect x y w h c
        = ILI9486_FillRect x y (min w (320 - x)) (min h (480 - y)) c
    ∧ ILI9486_FillRect 0 0 (320 + 100) 480 c = ILI9486_FillRect 0 0 320 480 c
    ∧ clip ILI9486_ANCHO x w = min w (320 - x)
    ∧ clip ILI9486_ALTO y h = min h (480 - y)
    ∧ (x : Int) + (clip ILI9486_ANCHO x w : Int) - 1 < 320
    ∧ (y : Int) + (clip ILI9486_ALTO y h : Int) - 1 < 480 := by
  have key : ∀ x y w h : Nat, x < 320 → y < 480 →
      ILI9486_FillRect x y w h c
        = ILI9486_FillRect x y (min w (320 - x)) (min h (480 - y)) c := by
    intro x y w h hx hy
    simp only [ILI9486_FillRect, clip_width_eq_min _ _ hx, clip_height_eq_min _ _ hy,
      Nat.min_assoc, Nat.min_self]
  refine ⟨key x y w h hx hy, ?_, clip_width_eq_min x w hx, clip_height_eq_min y h hy, ?_, ?_⟩
  · have e1 : min (320 + 100) (320 - 0) = 320 := by decide
    have e2 : min 480 (480 - 0) = 480 := by decide
    rw [key 0 0 (320 + 100) 480 (by omega) (by omega), e1, e2]
  · rw [clip_width_eq_min x w hx]; omega
  · rw [clip_height_eq_min y h hy]; omega

/-- Witness of C3 on a rectangle that overhangs the right and bottom edges. -/
theorem C3_clip_is_clamp_witness :
    (300 < 320 ∧ 470 < 480)
    ∧ (ILI9486_FillRect 300 470 50 20 0x001F
        = ILI9486_FillRect 300 470 (min 50 (320 - 300)) (min 20 (480 - 470)) 0x001F
    ∧ ILI9486_FillRect 0 0 (320 + 100) 480 0x001F = ILI9486_FillRect 0 0 320 480 0x001F
    ∧ clip ILI9486_ANCHO 300 50 = min 50 (320 - 300)
    ∧ clip ILI9486_ALTO 470 20 = min 20 (480 - 470)
    ∧ ((300 : Nat) : Int) + (clip ILI9486_ANCHO 300 50 : Int) - 1 < 320
    ∧ ((470 : Nat) : Int) + (clip ILI9486_ALTO 470 20 : Int) - 1 < 480) :=
  ⟨by decide, C3_clip_is_clamp 300 470 50 20 0x001F (by decide) (by decide)⟩

/-- C4: for 16-bit corners, `ILI9486_SetWindow` is one chip-select bracket
holding exactly 11 bytes: command 0x2A, the two bytes of `x0` and of `x1`
(high byte first) as data, command 0x2B, the two bytes of `y0` and of `y1` as
data, command 0x2C with no data byte after it; each pair of coordinate bytes
recombines (`hi * 256 + lo`) to the coordinate passed in. -/
theorem C4_setWindow_frame (x0 y0 x1 y1 : Nat)
    (hx0 : x0 < 65536) (hy0 : y0 < 65536) (hx1 : x1 < 65536) (hy1 : y1 < 65536) :
    (∀ m, tagged m (ILI9486_SetWindow x0 y0 x1 y1) =
        [(Mode.command, 0x2A),
         (Mode.data, x0 >>> 8), (Mode.data, x0 &&& 0xFF),
         (Mode.data, x1 >>> 8), (Mode.data, x1 &&& 0xFF),
         (Mode.command, 0x2B),
         (Mode.data, y0 >>> 8), (Mode.data, y0 &&& 0xFF),
         (Mode.data, y1 >>> 8), (Mode.data, y1 &&& 0xFF),
         (Mode.command, 0x2C)])
    ∧ (∀ m, (tagged m (ILI9486_SetWindow x0 y0 x1 y1)).length = 11)
    ∧ (ILI9486_SetWindow x0 y0 x1 y1).head? = some csLow
    ∧ (ILI9486_SetWindow x0 y0 x1 y1).getLast? = some csHigh
    ∧ (ILI9486_SetWindow x0 y0 x1 y1).count csLow = 1
    ∧ (ILI9486_SetWindow x0 y0 x1 y1).count csHigh = 1
    ∧ (x0 >>> 8) * 256 + (x0 &&& 0xFF) = x0
    ∧ (x1 >>> 8) * 256 + (x1 &&& 0xFF) = x1
    ∧ (y0 >>> 8) * 256 + (y0 &&& 0xFF) = y0
    ∧ (y1 >>> 8) * 256 + (y1 &&& 0xFF) = y1 := by
  have hev := setWindow_events x0 y0 x1 y1 hx0 hy0 hx1 hy1
  have htag : ∀ m, tagged m (ILI9486_SetWindow x0 y0 x1 y1) =
        [(Mode.command, 0x2A),
         (Mode.data, x0 >>> 8), (Mode.data, x0 &&& 0xFF),
         (Mode.data, x1 >>> 8), (Mode.data, x1 &&& 0xFF),
         (Mode.command, 0x2B),
         (Mode.data, y0 >>> 8), (Mode.data, y0 &&& 0xFF),
         (Mode.data, y1 >>> 8), (Mode.data, y1 &&& 0xFF),
         (Mode.command, 0x2C)] := by
    intro m
    rw [hev]
    simp only [tagged]
  refine ⟨htag, ?_, ?_, ?_, ?_, ?_, hi_lo_recombine x0, hi_lo_recombine x1,
    hi_lo_recombine y0, hi_lo_recombine y1⟩
  · intro m; rw [htag m]; rfl
  · rw [hev]; rfl
  · rw [hev]; rfl
  · rw [hev]; simp
  · rw [hev]; simp

/-- Witness of C4 on the full-panel window (0, 0, 319, 479). -/
theorem C4_setWindow_frame_witness :
    (0 < 65536 ∧ 0 < 65536 ∧ 319 < 65536 ∧ 479 < 65536)
    ∧ ((∀ m, tagged m (ILI9486_SetWindow 0 0 319 479) =
        [(Mode.command, 0x2A),
         (Mode.data, 0 >>> 8), (Mode.data, 0 &&& 0xFF),
         (Mode.data, 319 >>> 8), (Mode.data, 319 &&& 0xFF),
         (Mode.command, 0x2B),
         (Mode.data, 0 >>> 8), (Mode.data, 0 &&& 0xFF),
         (Mode.data, 479 >>> 8), (Mode.data, 479 &&& 0xFF),
         (Mode.command, 0x2C)])
    ∧ (∀ m, (tagged m (ILI9486_SetWindow 0 0 319 479)).length = 11)
    ∧ (ILI9486_SetWindow 0 0 319 479).head? = some csLow
    ∧ (ILI9486_SetWindow 0 0 319 479).getLast? = some csHigh
    ∧ (ILI9486_SetWindow 0 0 319 479).count csLow = 1
    ∧ (ILI9486_SetWindow 0 0 319 479).count csHigh = 1
    ∧ (0 >>> 8) * 256 + (0 &&& 0xFF) = 0
    ∧ (319 >>> 8) * 256 + (319 &&& 0xFF) = 319
    ∧ (0 >>> 8) * 256 + (0 &&& 0xFF) = 0
    ∧ (479 >>> 8) * 256 + (479 &&& 0xFF) = 479) :=
  ⟨by decide, C4_setWindow_frame 0 0 319 479 (by decide) (by decide) (by decide) (by decide)⟩

/-- C5: the command/parameter frames of `ILI9486_Init`, in order, are 0xB0 [0x00],
0x11 [], 0x3A [0x55], 0x36 [0x28], 0xC2 [0x44], 0xC5 [0,0,0,0], 0xE0 with the 15
entries of `gammaP`, 0xE1 with the 15 entries of `gammaN`, 0x29 []; so sleep-out
precedes pixel-format-set, which precedes display-on, and the event right after
the sleep-out command and right after the display-on command is a delay. -/
theorem C5_init_sequence :
    frames (tagged Mode.data ILI9486_Init) =
        [(0xB0, [0x00]), (0x11, []), (0x3A, [0x55]), (0x36, [0x28]), (0xC2, [0x44]),
         (0xC5, [0x00, 0x00, 0x00, 0x00]), (0xE0, gammaP), (0xE1, gammaN), (0x29, [])]
    ∧ tagged Mode.command ILI9486_Init = tagged Mode.data ILI9486_Init
    ∧ (tagged Mode.data ILI9486_Init).length = 9 + (1 + 1 + 1 + 1 + 4 + 15 + 15)
    ∧ (tagged Mode.data ILI9486_Init).head? = some (Mode.command, 0xB0)
    ∧ gammaP.length = 15 ∧ gammaN.length = 15
    ∧ opcodes ILI9486_Init = [0xB0, 0x11, 0x3A, 0x36, 0xC2, 0xC5, 0xE0, 0xE1, 0x29]
    ∧ (opcodes ILI9486_Init).indexOf 0x11 < (opcodes ILI9486_Init).indexOf 0x3A
    ∧ (opcodes ILI9486_Init).indexOf 0x3A < (opcodes ILI9486_Init).indexOf 0x29
    ∧ (∃ pre post, ILI9486_Init
          = pre ++ [dcCmd, send 0x11, waitBusy, delay 150000, dcCmd, send 0x3A] ++ post)
    ∧ (∃ pre, ILI9486_Init = pre ++ [dcCmd, send 0x29, waitBusy, delay 150000, csHigh]) := by
  refine ⟨by decide, by decide, by decide, by decide, by decide, by decide, by decide,
    by decide, by decide, ?_, ?_⟩
  · exact ⟨ILI9486_Init.take 24, ILI9486_Init.drop 30, by decide⟩
  · exact ⟨ILI9486_Init.take 157, by decide⟩

/-- C6: on the panel, `ILI9486_DrawPixel` is `ILI9486_SetWindow(x, y, x, y)`
followed by a streaming bracket with the single pair `(c >> 8, c & 0xFF)`, and
its trace equals that of `ILI9486_FillRect(x, y, 1, 1, c)`; for
`drawPixel(319, 479, 0xFFFF)` the window is (319,479,319,479) and the pair is
(0xFF, 0xFF). -/
theorem C6_drawPixel_is_unit_fill (x y c : Nat) (hx : x < 320) (hy : y < 480)
    (hc : c < 65536) :
    ILI9486_DrawPixel x y c =
        ILI9486_SetWindow x y x y
          ++ [csLow, dcData, send (c >>> 8), send (c &&& 0xFF), waitBusy, csHigh]
    ∧ ILI9486_DrawPixel x y c = ILI9486_FillRect x y 1 1 c
    ∧ ILI9486_DrawPixel 319 479 0xFFFF =
        ILI9486_SetWindow 319 479 319 479
          ++ [csLow, dcData, send 0xFF, send 0xFF, waitBusy, csHigh] := by
  refine ⟨drawPixel_on_panel x y c hx hy hc, ?_, ?_⟩
  · rw [drawPixel_on_panel x y c hx hy hc,
      fillRect_on_panel x y 1 1 c (by omega) (by omega) (by omega) (by omega) hc]
    simp [burst]
  · rw [drawPixel_on_panel 319 479 0xFFFF (by omega) (by omega) (by omega)]
    rfl

/-- Witness of C6 at the pixel (10, 20) in colour 0x1234. -/
theorem C6_drawPixel_is_unit_fill_witness :
    (10 < 320 ∧ 20 < 480 ∧ 0x1234 < 65536)
    ∧ (ILI9486_DrawPixel 10 20 0x1234 =
        ILI9486_SetWindow 10 20 10 20
          ++ [csLow, dcData, send (0x1234 >>> 8), send (0x1234 &&& 0xFF), waitBusy, csHigh]
    ∧ ILI9486_DrawPixel 10 20 0x1234 = ILI9486_FillRect 10 20 1 1 0x1234
    ∧ ILI9486_DrawPixel 319 479 0xFFFF =
        ILI9486_SetWindow 319 479 319 479
          ++ [csLow, dcData, send 0xFF, send 0xFF, waitBusy, csHigh]) :=
  ⟨by decide, C6_drawPixel_is_unit_fill 10 20 0x1234 (by decide) (by decide) (by decide)⟩

/-- C7: for a rectangle lying fully on the panel and a source of at least
`w * h` 16-bit entries, `ILI9486_DrawImage` emits the window sequence for
`(x, y, x + w - 1, y + h - 1)` once, followed by one streaming bracket holding
the `2 * w * h` bytes hi, lo of the first `w * h` source entries in source
order, all in data mode and with nothing between two pixels; for a 2x2 region
with pixels `[A, B, C, D]` the window is `(x, y, x + 1, y + 1)` and the stream
is hi A, lo A, hi B, lo B, hi C, lo C, hi D, lo D. -/
theorem C7_drawImage_stream (x y w h : Nat) (pixels : List Nat) (data : Nat → Nat)
    (hw : 1 ≤ w) (hh : 1 ≤ h) (hx : x + w ≤ 320) (hy : y + h ≤ 480)
    (hlen : w * h ≤ pixels.length) (h16 : ∀ p ∈ pixels, p < 65536)
    (hdata : ∀ i, i < pixels.length → data i = pixels.getD i 0) :
    ILI9486_DrawImage x y w h data =
        ILI9486_SetWindow x y (x + w - 1) (y + h - 1)
          ++ ([csLow, dcData] ++ burst (pixels.take (w * h)) ++ [waitBusy, csHigh])
    ∧ (burst (pixels.take (w * h))).length = 2 * (w * h)
    ∧ tagged Mode.command ([csLow, dcData] ++ burst (pixels.take (w * h)) ++ [waitBusy, csHigh])
        = (pixels.take (w * h)).flatMap
            (fun p => [(Mode.data, p >>> 8), (Mode.data, p &&& 0xFF)])
    ∧ (∀ A B C D, w = 2 → h = 2 → pixels = [A, B, C, D] →
        ILI9486_DrawImage x y w h data =
          ILI9486_SetWindow x y (x + 1) (y + 1)
            ++ [csLow, dcData,
                send (A >>> 8), send (A &&& 0xFF), send (B >>> 8), send (B &&& 0xFF),
                send (C >>> 8), send (C &&& 0xFF), send (D >>> 8), send (D &&& 0xFF),
                waitBusy, csHigh]) := by
  have main : ILI9486_DrawImage x y w h data =
        ILI9486_SetWindow x y (x + w - 1) (y + h - 1)
          ++ ([csLow, dcData] ++ burst (pixels.take (w * h)) ++ [waitBusy, csHigh]) := by
    rw [drawImage_on_panel x y w h data hw hh hx hy,
      buffer_range data pixels (w * h) hdata hlen h16]
  refine ⟨main, ?_, ?_, ?_⟩
  · rw [burst_length, List.length_take, Nat.min_eq_left hlen]
  · have ht := tagged_burst (pixels.take (w * h)) [waitBusy, csHigh]
    have hr : tagged Mode.data [waitBusy, csHigh] = [] := rfl
    rw [hr, List.append_nil] at ht
    exact ht
  · intro A B C D hw2 hh2 hp
    rw [main]
    subst hw2 hh2 hp
    rfl

/-- Witness of C7 on a 2x2 image at (100, 200). -/
theorem C7_drawImage_stream_witness :
    (1 ≤ 2 ∧ 1 ≤ 2 ∧ 100 + 2 ≤ 320 ∧ 200 + 2 ≤ 480
      ∧ 2 * 2 ≤ [0xF800, 0x07E0, 0x001F, 0xFFFF].length)
    ∧ (ILI9486_DrawImage 100 200 2 2 (readBuf [0xF800, 0x07E0, 0x001F, 0xFFFF]) =
        ILI9486_SetWindow 100 200 (100 + 2 - 1) (200 + 2 - 1)
          ++ ([csLow, dcData] ++ burst ([0xF800, 0x07E0, 0x001F, 0xFFFF].take (2 * 2))
              ++ [waitBusy, csHigh])
    ∧ (burst ([0xF800, 0x07E0, 0x001F, 0xFFFF].take (2 * 2))).length = 2 * (2 * 2)
    ∧ tagged Mode.command
        ([csLow, dcData] ++ burst ([0xF800, 0x07E0, 0x001F, 0xFFFF].take (2 * 2))
          ++ [waitBusy, csHigh])
        = ([0xF800, 0x07E0, 0x001F, 0xFFFF].take (2 * 2)).flatMap
            (fun p => [(Mode.data, p >>> 8), (Mode.data, p &&& 0xFF)])
    ∧ (∀ A B C D, 2 = 2 → 2 = 2 → [0xF800, 0x07E0, 0x001F, 0xFFFF] = [A, B, C, D] →
        ILI9486_DrawImage 100 200 2 2 (readBuf [0xF800, 0x07E0, 0x001F, 0xFFFF]) =
          ILI9486_SetWindow 100 200 (100 + 1) (200 + 1)
            ++ [csLow, dcData,
                send (A >>> 8), send (A &&& 0xFF), send (B >>> 8), send (B &&& 0xFF),
                send (C >>> 8), send (C &&& 0xFF), send (D >>> 8), send (D &&& 0xFF),
                waitBusy, csHigh])) :=
  ⟨by decide,
   C7_drawImage_stream 100 200 2 2 [0xF800, 0x07E0, 0x001F, 0xFFFF]
    (readBuf [0xF800, 0x07E0, 0x001F, 0xFFFF])
    (by decide) (by decide) (by decide) (by decide) (by decide) (by decide)
    (readBuf_agrees _)⟩

/-- C8: the trace of every public operation, for all arguments, obeys the
link protocol: every byte is sent with chip-select asserted and after the
discriminator was set in that bracket; the discriminator changes and
chip-select is deasserted only when no byte has been sent since the last
wait-for-idle; and the operation ends with chip-select deasserted. -/
theorem C8_link_protocol :
    obeysLink ILI9486_Init
    ∧ (∀ x0 y0 x1 y1, obeysLink (ILI9486_SetWindow x0 y0 x1 y1))
    ∧ (∀ x y c, obeysLink (ILI9486_DrawPixel x y c))
    ∧ (∀ x y w h c, obeysLink (ILI9486_FillRect x y w h c))
    ∧ (∀ x y w h data, obeysLink (ILI9486_DrawImage x y w h data)) := by
  refine ⟨⟨⟨false, true, false⟩, by decide, rfl⟩, ?_, ?_, ?_, ?_⟩
  · intro x0 y0 x1 y1
    exact ⟨⟨false, true, false⟩, run_setWindow x0 y0 x1 y1 false false, rfl⟩
  · intro x y c
    unfold ILI9486_DrawPixel
    split
    · exact obeysLink_nil
    · exact obeysLink_window_then_stream x y x y (SPI_SendWord c) true
        (by simp [SPI_SendWord, SPI_SendByte, Link.run, Link.step])
  · intro x y w h c
    unfold ILI9486_FillRect
    split
    · exact obeysLink_nil
    · exact obeysLink_window_then_stream _ _ _ _ _ _ (run_fillLoop _ _ _ false)
  · intro x y w h data
    unfold ILI9486_DrawImage
    split
    · exact obeysLink_nil
    · exact obeysLink_window_then_stream _ _ _ _ _ _ (run_imageLoop data _ 0 false)

/-- C9, the claim as stated fails: on the 1x2 image `[0x1111, 0x2222]` drawn at
(0, 479) clipping reduces the height (479 + 2 > 480) and the pixels are
pairwise distinct, yet the emitted stream equals the correctly cropped
sub-region. -/
theorem C9_height_only_clip_counterexample :
    (0 < 320 ∧ 479 < 480 ∧ 1 ≤ 1 ∧ 1 ≤ 2
      ∧ [0x1111, 0x2222].length = 1 * 2 ∧ [0x1111, 0x2222].Nodup
      ∧ (320 < 0 + 1 ∨ 480 < 479 + 2))
    ∧ pixelStream (ILI9486_DrawImage 0 479 1 2 (readBuf [0x1111, 0x2222]))
        = [0x1111, 0x2222].take (min 1 (320 - 0) * min 2 (480 - 479))
    ∧ ¬ (pixelStream (ILI9486_DrawImage 0 479 1 2 (readBuf [0x1111, 0x2222]))
        ≠ cropped [0x1111, 0x2222] 1 (min 1 (320 - 0)) (min 2 (480 - 479))) := by
  decide

/-- C9 as amended: for an on-panel anchor, `w ≥ 1`, `h ≥ 1` and a source of
`w * h` pairwise-distinct 16-bit pixels, the pixel stream of
`ILI9486_DrawImage` is the first `w' * h'` source entries read contiguously
(`w' = min w (320 - x)`, `h' = min h (480 - y)`), and it differs from the
correctly cropped sub-region exactly when the width is reduced (`x + w > 320`)
and at least two rows remain (`h' ≥ 2`). -/
theorem C9_clipped_blit_stream (x y w h : Nat) (pixels : List Nat) (data : Nat → Nat)
    (hx : x < 320) (hy : y < 480) (hw : 1 ≤ w) (hh : 1 ≤ h)
    (hlen : pixels.length = w * h) (h16 : ∀ p ∈ pixels, p < 65536) (hnd : pixels.Nodup)
    (hdata : ∀ i, i < pixels.length → data i = pixels.getD i 0) :
    pixelStream (ILI9486_DrawImage x y w h data)
        = pixels.take (min w (320 - x) * min h (480 - y))
    ∧ (pixelStream (ILI9486_DrawImage x y w h data)
          ≠ cropped pixels w (min w (320 - x)) (min h (480 - y))
        ↔ (320 < x + w ∧ 2 ≤ min h (480 - y))) := by
  have hle : min w (320 - x) * min h (480 - y) ≤ pixels.length := by
    rw [hlen]; exact Nat.mul_le_mul (Nat.min_le_left _ _) (Nat.min_le_left _ _)
  have hstream : pixelStream (ILI9486_DrawImage x y w h data)
      = pixels.take (min w (320 - x) * min h (480 - y)) := by
    rw [drawImage_clipped x y w h data hx hy, pixelStream_window_burst,
      buffer_range data pixels _ hdata hle h16]
  refine ⟨hstream, ?_⟩
  rw [hstream]
  constructor
  · intro hne
    by_contra hcon
    apply hne
    rw [take_eq_map_range pixels _ hle]
    unfold cropped
    by_cases hwide : 320 < x + w
    · have h1 : min h (480 - y) = 1 := by omega
      rw [h1, cropIndices_one_row, Nat.mul_one]
    · have hw' : min w (320 - x) = w := by omega
      rw [hw', cropIndices_full]
  · rintro ⟨hwide, hrows⟩ heq
    obtain ⟨k, hk⟩ : ∃ k, min h (480 - y) = k + 2 := ⟨min h (480 - y) - 2, by omega⟩
    have hw1 : 1 ≤ min w (320 - x) := by omega
    have hwlt : min w (320 - x) < w := by omega
    have h2w : min w (320 - x) * 2 ≤ min w (320 - x) * min h (480 - y) :=
      Nat.mul_le_mul_left _ hrows
    have hw2 : w * 2 ≤ w * h := Nat.mul_le_mul_left _ (by omega)
    have hA : min w (320 - x) < pixels.length := by omega
    have hB : w < pixels.length := by omega
    have hidx := congrArg (fun l => l[min w (320 - x)]?) heq
    simp only [cropped, List.getElem?_take, List.getElem?_map, hk,
      cropIndices_second_row w _ k hw1, Option.map_some', List.getD_eq_getElem?_getD,
      List.getElem?_eq_getElem hA, List.getElem?_eq_getElem hB, Option.getD_some] at hidx
    rw [← hk, if_pos (by omega)] at hidx
    have hinj := (@List.Nodup.getElem_inj_iff _ _ hnd _ hA _ hB).mp (Option.some.inj hidx)
    omega

/-- Witness of C9 (amended) on a 3x2 image at (318, 0): the width is cut to 2. -/
theorem C9_clipped_blit_stream_witness :
    (318 < 320 ∧ 0 < 480 ∧ 1 ≤ 3 ∧ 1 ≤ 2 ∧ [1, 2, 3, 4, 5, 6].length = 3 * 2
      ∧ [1, 2, 3, 4, 5, 6].Nodup)
    ∧ (pixelStream (ILI9486_DrawImage 318 0 3 2 (readBuf [1, 2, 3, 4, 5, 6]))
        = [1, 2, 3, 4, 5, 6].take (min 3 (320 - 318) * min 2 (480 - 0))
      ∧ (pixelStream (ILI9486_DrawImage 318 0 3 2 (readBuf [1, 2, 3, 4, 5, 6]))
            ≠ cropped [1, 2, 3, 4, 5, 6] 3 (min 3 (320 - 318)) (min 2 (480 - 0))
          ↔ (320 < 318 + 3 ∧ 2 ≤ min 2 (480 - 0)))) :=
  ⟨by decide,
   C9_clipped_blit_stream 318 0 3 2 [1, 2, 3, 4, 5, 6] (readBuf [1, 2, 3, 4, 5, 6])
    (by decide) (by decide) (by decide) (by decide) (by decide) (by decide) (by decide)
    (readBuf_agrees _)⟩

/-- C10, the code at a zero width: `ILI9486_FillRect(5, 0, 0, 1, c)` and
`ILI9486_DrawImage(5, 0, 0, 1, data)` program the window (5, 0, 4, 0), whose
right edge lies left of its left edge, and `ILI9486_FillRect(0, 0, 0, 1, c)`
programs (0, 0, 65535, 0), whose right edge is off the panel; all three break
the precondition of `setWindow`. -/
theorem C10_zero_size_window :
    ILI9486_FillRect 5 0 0 1 0x07E0
        = ILI9486_SetWindow 5 0 4 0 ++ [csLow, dcData, waitBusy, csHigh]
    ∧ windowOf (ILI9486_FillRect 5 0 0 1 0x07E0) = some (5, 0, 4, 0)
    ∧ windowOf (ILI9486_DrawImage 5 0 0 1 (readBuf [])) = some (5, 0, 4, 0)
    ∧ ¬ windowPre (5, 0, 4, 0)
    ∧ windowOf (ILI9486_FillRect 0 0 0 1 0x07E0) = some (0, 0, 65535, 0)
    ∧ ¬ windowPre (0, 0, 65535, 0)
    ∧ windowOf (ILI9486_FillRect 0 5 1 0 0x07E0) = some (0, 5, 0, 4)
    ∧ ¬ windowPre (0, 5, 0, 4) := by
  decide

end ILI9486
